import Mathlib

/-!
Shallow embedding of the trading-analysis app (`src/app.py`) and proofs about
its core logic: pivot points, EMA computation, and the Ripster signal
classifier.  Prices are modelled as rationals (the source works on Python
floats via pandas); series are lists of bars in chronological order.
-/

namespace TradingApp

/-- One OHLCV row of a pandas history frame. Only the fields the analysis
reads (`High`, `Low`, `Close`) are carried; `Open` and `Volume` are used by
the chart alone. -/
structure Bar where
  high : ℚ
  low : ℚ
  close : ℚ
deriving DecidableEq, Repr

/-- The dict returned by `calculate_pivot_points` (keys R2, R1, PP, S1, S2). -/
structure Pivots where
  R2 : ℚ
  R1 : ℚ
  PP : ℚ
  S1 : ℚ
  S2 : ℚ
deriving DecidableEq, Repr

/-- Source function `calculate_pivot_points`:
`pp = (high + low + close) / 3` and the four derived levels. -/
def calculate_pivot_points (prev_day : Bar) : Pivots :=
  let pp := (prev_day.high + prev_day.low + prev_day.close) / 3
  { R2 := pp + (prev_day.high - prev_day.low)
    R1 := (2 * pp) - prev_day.low
    PP := pp
    S1 := (2 * pp) - prev_day.high
    S2 := pp - (prev_day.high - prev_day.low) }

/-- Tail of `Series.ewm(span, adjust=False).mean()` after the first value:
each output is `(1 - α) * prev + α * close` (the pandas recurrence for
`adjust=False`). -/
def ewmaFrom (α prev : ℚ) : List ℚ → List ℚ
  | [] => []
  | c :: cs => ((1 - α) * prev + α * c) :: ewmaFrom α ((1 - α) * prev + α * c) cs

/-- Embedding of `closes.ewm(span=p, adjust=False).mean()` for span `p`:
the smoothing factor is `α = 2 / (p + 1)`, the first output equals the
first close, and the rest follow the `adjust=False` recurrence. -/
def emaList (p : ℕ) (closes : List ℚ) : List ℚ :=
  match closes with
  | [] => []
  | c :: cs => c :: ewmaFrom (2 / (p + 1)) c cs

/-- The intraday frame after `calculate_emas`: the `Close` column plus the
six EMA columns the loop adds (pandas stores a frame column-wise). -/
structure FrameE where
  closes : List ℚ
  ema5 : List ℚ
  ema8 : List ℚ
  ema9 : List ℚ
  ema12 : List ℚ
  ema34 : List ℚ
  ema50 : List ℚ
deriving DecidableEq, Repr

/-- Source function `calculate_emas`: for each period in
[5, 8, 9, 12, 34, 50] it stores, as the EMA column of that period, the
ewm mean of the Close column with span = period and adjust = False; each
column is computed independently from Close. -/
def calculate_emas (data : List Bar) : FrameE :=
  { closes := data.map Bar.close
    ema5 := emaList 5 (data.map Bar.close)
    ema8 := emaList 8 (data.map Bar.close)
    ema9 := emaList 9 (data.map Bar.close)
    ema12 := emaList 12 (data.map Bar.close)
    ema34 := emaList 34 (data.map Bar.close)
    ema50 := emaList 50 (data.map Bar.close) }

/-- The periods the `calculate_emas` loop iterates over. -/
def emaPeriods : List ℕ := [5, 8, 9, 12, 34, 50]

/-- The EMA column of the frame that belongs to period `p`. -/
def emaColumn (p : ℕ) (f : FrameE) : List ℚ :=
  if p = 5 then f.ema5
  else if p = 8 then f.ema8
  else if p = 9 then f.ema9
  else if p = 12 then f.ema12
  else if p = 34 then f.ema34
  else if p = 50 then f.ema50
  else []

/-- Truncation of a frame to its first `k` rows (column-wise `take`). -/
def frameTake (k : ℕ) (f : FrameE) : FrameE :=
  { closes := f.closes.take k
    ema5 := f.ema5.take k
    ema8 := f.ema8.take k
    ema9 := f.ema9.take k
    ema12 := f.ema12.take k
    ema34 := f.ema34.take k
    ema50 := f.ema50.take k }

/-- Rounding to the nearest integer with ties to even, the rule Python
fixed-point formatting applies to the scaled value. -/
def roundHalfEven (q : ℚ) : ℤ :=
  if q - ⌊q⌋ < 1/2 then ⌊q⌋
  else if q - ⌊q⌋ > 1/2 then ⌊q⌋ + 1
  else if ⌊q⌋ % 2 = 0 then ⌊q⌋ else ⌊q⌋ + 1

/-- Python fixed-point formatting with the .2f format specifier: the value
rounded to 2 decimal places and printed with exactly two fractional
digits. -/
def fmt2 (q : ℚ) : String :=
  let n := roundHalfEven (q * 100)
  let sign := if n < 0 then "-" else ""
  let a := n.natAbs
  let frac := a % 100
  let fracStr := if frac < 10 then "0" ++ toString frac else toString frac
  sign ++ toString (a / 100) ++ "." ++ fracStr

/-- The dict returned by `get_ripster_signal`. -/
structure Verdict where
  signal : String
  reason : String
  stop_loss : String
  current_price : ℚ
deriving DecidableEq, Repr

/-- The body of `get_ripster_signal` once `latest = data.iloc[-1]` has been
read: `is_bullish_bias = price > EMA34 and price > EMA50`,
`is_long_confirmation = EMA5 > EMA12` (and the bearish/short mirror images);
the verdict defaults to HOLD/NEUTRAL and is replaced by the LONG branch,
`elif` by the SHORT branch.  All strings are the source literals. -/
def classifyLast (price e5 e12 e34 e50 : ℚ) : Verdict :=
  if (price > e34 ∧ price > e50) ∧ e5 > e12 then
    { signal := "🟢 LONG"
      reason := "Bullish bias confirmed by price over 34/50 cloud and 5/12 EMA cross."
      stop_loss := "Primary stop is 34/50 cloud (" ++ fmt2 e34 ++ "-" ++ fmt2 e50 ++ ")."
      current_price := price }
  else if (price < e34 ∧ price < e50) ∧ e5 < e12 then
    { signal := "🔴 SHORT"
      reason := "Bearish bias confirmed by price under 34/50 cloud and 5/12 EMA cross."
      stop_loss := "Primary stop is 34/50 cloud (" ++ fmt2 e34 ++ "-" ++ fmt2 e50 ++ ")."
      current_price := price }
  else
    { signal := "⚪️ HOLD/NEUTRAL"
      reason := "Price is in a consolidation or conflicting signal zone."
      stop_loss := "No trade recommended."
      current_price := price }

/-- Source function `get_ripster_signal`: reads the last row of the
EMA-augmented frame and classifies it; `data.iloc[-1]` on an empty frame
raises, which the embedding renders as `none`. -/
def get_ripster_signal (f : FrameE) : Option Verdict :=
  match f.closes.getLast?, f.ema5.getLast?, f.ema12.getLast?,
      f.ema34.getLast?, f.ema50.getLast? with
  | some price, some e5, some e12, some e34, some e50 =>
      some (classifyLast price e5 e12 e34 e50)
  | _, _, _, _, _ => none

/-- The classifier as the refinement reading of claim C10 states it: the SHORT rule
tested by its own `if` rather than an `elif`, so a SHORT match would
overwrite the result of the LONG test; written as the equivalent nested
conditional (SHORT test outermost). -/
def classifyShortIndependent (price e5 e12 e34 e50 : ℚ) : Verdict :=
  if (price < e34 ∧ price < e50) ∧ e5 < e12 then
    { signal := "🔴 SHORT"
      reason := "Bearish bias confirmed by price under 34/50 cloud and 5/12 EMA cross."
      stop_loss := "Primary stop is 34/50 cloud (" ++ fmt2 e34 ++ "-" ++ fmt2 e50 ++ ")."
      current_price := price }
  else if (price > e34 ∧ price > e50) ∧ e5 > e12 then
    { signal := "🟢 LONG"
      reason := "Bullish bias confirmed by price over 34/50 cloud and 5/12 EMA cross."
      stop_loss := "Primary stop is 34/50 cloud (" ++ fmt2 e34 ++ "-" ++ fmt2 e50 ++ ")."
      current_price := price }
  else
    { signal := "⚪️ HOLD/NEUTRAL"
      reason := "Price is in a consolidation or conflicting signal zone."
      stop_loss := "No trade recommended."
      current_price := price }

/-- The exception an iteration of the analysis loop can raise uncaught. -/
inductive AppErr where
  | indexError
deriving DecidableEq, Repr

/-- Row access `df.iloc[i]` with Python negative-index semantics: a
negative `i` counts from the end of the frame; an out-of-range position
raises IndexError, rendered as `none`. -/
def iloc (l : List Bar) (i : ℤ) : Option Bar :=
  let j := if i < 0 then (l.length : ℤ) + i else i
  if 0 ≤ j ∧ j < l.length then l.get? j.toNat else none

/-- What `get_stock_data` hands back: the `None, None` no-data case, or the
second-to-last daily row together with the intraday history. -/
inductive FetchResult where
  | unavailable
  | fetched (prev_day : Bar) (intraday : List Bar)
deriving DecidableEq, Repr

/-- Source function `get_stock_data` applied to the two series the
market-data gateway returns for a ticker: an empty daily or intraday history
short-circuits to the no-data result; otherwise `daily_hist.iloc[-2]` is
read — raising IndexError when the daily history has fewer than two
rows. -/
def get_stock_data (daily_hist intraday_hist : List Bar) :
    Except AppErr FetchResult :=
  if daily_hist = [] ∨ intraday_hist = [] then .ok .unavailable
  else
    match iloc daily_hist (-2) with
    | some prev => .ok (.fetched prev intraday_hist)
    | none => .error .indexError

/-- Per-ticker outcome of one iteration of `run_analysis_for_tickers`:
either the warning-and-skip case or the full analysis product. -/
inductive Outcome where
  | dataUnavailable
  | analyzed (pivots : Pivots) (frame : FrameE) (verdict : Verdict)
deriving DecidableEq, Repr

/-- The body of the loop in `run_analysis_for_tickers`, for one ticker:
fetch, skip when data is unavailable (`continue`), otherwise
pivots → EMAs → signal. -/
def analyzeTicker (gateway : String → List Bar × List Bar) (ticker : String) :
    Except AppErr Outcome :=
  match get_stock_data (gateway ticker).1 (gateway ticker).2 with
  | .error e => .error e
  | .ok .unavailable => .ok .dataUnavailable
  | .ok (.fetched prev intraday) =>
      match get_ripster_signal (calculate_emas intraday) with
      | some v =>
          .ok (.analyzed (calculate_pivot_points prev) (calculate_emas intraday) v)
      | none => .error .indexError

/-- Source function `run_analysis_for_tickers`: the tickers in list order;
a data-unavailable ticker is skipped with a warning, while an uncaught
exception in an iteration aborts the whole loop. -/
def run_analysis_for_tickers (gateway : String → List Bar × List Bar) :
    List String → Except AppErr (List (String × Outcome))
  | [] => .ok []
  | t :: ts =>
      match analyzeTicker gateway t with
      | .error e => .error e
      | .ok o =>
          match run_analysis_for_tickers gateway ts with
          | .error e => .error e
          | .ok rest => .ok ((t, o) :: rest)

/-- Two concrete intraday bars used to instantiate the EMA theorems. -/
def demoBars : List Bar := [⟨1, 1, 10⟩, ⟨1, 1, 11⟩]

/-- A gateway that returns empty histories for every ticker. -/
def demoGatewayEmpty : String → List Bar × List Bar := fun _ => ([], [])

/-- A gateway that returns a one-row daily history and a one-row intraday
history for every ticker. -/
def demoGatewayOneDay : String → List Bar × List Bar :=
  fun _ => ([⟨2, 1, 1⟩], [⟨2, 1, 1⟩])

theorem ewmaFrom_length (α prev : ℚ) (cs : List ℚ) :
    (ewmaFrom α prev cs).length = cs.length := by
  induction cs generalizing prev with
  | nil => rfl
  | cons c cs ih => simp [ewmaFrom, ih]

theorem emaList_length (p : ℕ) (cs : List ℚ) : (emaList p cs).length = cs.length := by
  cases cs with
  | nil => rfl
  | cons c cs => simp [emaList, ewmaFrom_length]

theorem emaList_head? (p : ℕ) (cs : List ℚ) : (emaList p cs).head? = cs.head? := by
  cases cs <;> rfl

/-- The step relation of the `adjust=False` recurrence, read off consecutive
entries of `prev :: ewmaFrom α prev cs` (closes `cs` are the inputs that
produce the entries after `prev`). -/
theorem ewmaFrom_get?_succ (α : ℚ) (cs : List ℚ) (prev : ℚ) (i : ℕ) (x c : ℚ)
    (hx : (prev :: ewmaFrom α prev cs).get? i = some x)
    (hc : cs.get? i = some c) :
    (prev :: ewmaFrom α prev cs).get? (i + 1) = some ((1 - α) * x + α * c) := by
  induction cs generalizing prev i with
  | nil => simp at hc
  | cons c0 cs ih =>
    cases i with
    | zero =>
      simp only [List.get?] at hx hc
      cases hx; cases hc
      rfl
    | succ j =>
      have hx' : (((1 - α) * prev + α * c0) :: ewmaFrom α ((1 - α) * prev + α * c0) cs).get? j
          = some x := hx
      have hc' : cs.get? j = some c := hc
      exact ih ((1 - α) * prev + α * c0) j hx' hc'

/-- The recurrence for `emaList` in the form the spec states,
`next = x + α * (c - x)`. -/
theorem emaList_recurrence (p : ℕ) (cs : List ℚ) (i : ℕ) (x c : ℚ)
    (hx : (emaList p cs).get? i = some x)
    (hc : cs.get? (i + 1) = some c) :
    (emaList p cs).get? (i + 1) = some (x + (2 / (p + 1 : ℚ)) * (c - x)) := by
  cases cs with
  | nil => simp [emaList] at hx
  | cons c0 cs =>
    have h := ewmaFrom_get?_succ (2 / (p + 1 : ℚ)) cs c0 i x c hx hc
    rw [emaList]
    rw [h]
    congr 1
    ring

theorem ewmaFrom_take (α prev : ℚ) (cs : List ℚ) (k : ℕ) :
    ewmaFrom α prev (cs.take k) = (ewmaFrom α prev cs).take k := by
  induction cs generalizing prev k with
  | nil => simp [ewmaFrom]
  | cons c cs ih =>
    cases k with
    | zero => simp [ewmaFrom]
    | succ j => simp [ewmaFrom, ih]

theorem emaList_take (p : ℕ) (cs : List ℚ) (k : ℕ) :
    emaList p (cs.take k) = (emaList p cs).take k := by
  cases cs with
  | nil => simp [emaList]
  | cons c cs =>
    cases k with
    | zero => simp [emaList]
    | succ j => simp [emaList, ewmaFrom_take]

/-- C3: each EMA column of `calculate_emas` is the `adjust=False`
exponentially-weighted average of the `Close` column: one value per bar
(no minimum-length gating), first value equal to the first close, and each
subsequent value `x + α * (c - x)` with `α = 2 / (p + 1)`. -/
theorem ema_recurrence_spec (data : List Bar) (p : ℕ) (hp : p ∈ emaPeriods) :
    emaColumn p (calculate_emas data) = emaList p (data.map Bar.close) ∧
    (emaColumn p (calculate_emas data)).length = data.length ∧
    (emaColumn p (calculate_emas data)).head? = (data.map Bar.close).head? ∧
    ∀ i x c, (emaColumn p (calculate_emas data)).get? i = some x →
      (data.map Bar.close).get? (i + 1) = some c →
      (emaColumn p (calculate_emas data)).get? (i + 1)
        = some (x + (2 / (p + 1 : ℚ)) * (c - x)) := by
  have hcol : emaColumn p (calculate_emas data) = emaList p (data.map Bar.close) := by
    fin_cases hp <;> rfl
  refine ⟨hcol, ?_, ?_, ?_⟩
  · rw [hcol, emaList_length, List.length_map]
  · rw [hcol, emaList_head?]
  · intro i x c hx hc
    rw [hcol] at hx ⊢
    exact emaList_recurrence p (data.map Bar.close) i x c hx hc

/-- C3 witness: for the 2-bar series with closes 10, 11 and span 50 (a
series far shorter than the period), the column still has one value per
bar and its second value follows the recurrence. -/
theorem ema_recurrence_spec_witness :
    50 ∈ emaPeriods ∧
    (emaColumn 50 (calculate_emas demoBars)).length = demoBars.length ∧
    (emaColumn 50 (calculate_emas demoBars)).get? (0 + 1)
      = some (10 + (2 / (50 + 1 : ℚ)) * (11 - 10)) := by
  have h := ema_recurrence_spec demoBars 50 (by decide)
  exact ⟨by decide, h.2.1, h.2.2.2 0 10 11 rfl rfl⟩

/-- C6: the EMA computation is strictly causal: running `calculate_emas`
on the first `k` bars reproduces the first `k` rows of every column of the
full-series run, and likewise `emaList` for every period commutes with
`take`. -/
theorem ema_causal (data : List Bar) (k : ℕ) :
    calculate_emas (data.take k) = frameTake k (calculate_emas data) ∧
    ∀ p : ℕ, emaList p ((data.map Bar.close).take k)
      = (emaList p (data.map Bar.close)).take k := by
  constructor
  · simp only [calculate_emas, frameTake, List.map_take, emaList_take]
  · intro p
    exact emaList_take p (data.map Bar.close) k

/-- C7 counterexample: `calculate_emas` invoked on a series with zero bars
does not fail — there is no raise path in the function, and on the empty
frame it returns the normal frame whose `Close` and EMA columns are all
empty (pandas `ewm(...).mean()` of an empty column is an empty column). -/
theorem calculate_emas_empty_counterexample :
    calculate_emas [] =
      { closes := [], ema5 := [], ema8 := [], ema9 := [],
        ema12 := [], ema34 := [], ema50 := [] } := rfl

/-- C7 (amended): on a zero-bar series the EMA engine returns normally,
producing an empty value column for each of the six periods (aligned with
the empty `Close` column) instead of failing with an EmptySeries error. -/
theorem calculate_emas_empty_amended :
    (calculate_emas []).closes = [] ∧
    (calculate_emas []).ema5 = [] ∧
    (calculate_emas []).ema8 = [] ∧
    (calculate_emas []).ema9 = [] ∧
    (calculate_emas []).ema12 = [] ∧
    (calculate_emas []).ema34 = [] ∧
    (calculate_emas []).ema50 = [] :=
  ⟨rfl, rfl, rfl, rfl, rfl, rfl, rfl⟩

/-- C4 counterexample: with (high, low, close) = (2, 1, 0) we have
high > low, yet R1 = PP, so the claimed strict chain R2 > R1 > PP > S1 > S2
fails and an equality occurs although high ≠ low.  The hypothesis
`high ≥ low` alone does not give the ordering: the claim also needs
`low ≤ close ≤ high`. -/
theorem pivot_ordering_counterexample :
    (2 : ℚ) > 1 ∧
    (calculate_pivot_points ⟨2, 1, 0⟩).R1 = (calculate_pivot_points ⟨2, 1, 0⟩).PP ∧
    ¬ (calculate_pivot_points ⟨2, 1, 0⟩).R1 > (calculate_pivot_points ⟨2, 1, 0⟩).PP := by
  norm_num [calculate_pivot_points]

/-- C4 (amended): for every prior-session input with low ≤ close ≤ high
(a coherent session, which gives high ≥ low), the pivot levels satisfy
R2 ≥ R1 ≥ PP ≥ S1 ≥ S2; the chain is strict whenever high > low, and any
equality between adjacent levels forces high = low. -/
theorem pivot_ordering_amended (prev : Bar)
    (hlc : prev.low ≤ prev.close) (hch : prev.close ≤ prev.high) :
    ((calculate_pivot_points prev).R2 ≥ (calculate_pivot_points prev).R1 ∧
      (calculate_pivot_points prev).R1 ≥ (calculate_pivot_points prev).PP ∧
      (calculate_pivot_points prev).PP ≥ (calculate_pivot_points prev).S1 ∧
      (calculate_pivot_points prev).S1 ≥ (calculate_pivot_points prev).S2) ∧
    (prev.high > prev.low →
      (calculate_pivot_points prev).R2 > (calculate_pivot_points prev).R1 ∧
      (calculate_pivot_points prev).R1 > (calculate_pivot_points prev).PP ∧
      (calculate_pivot_points prev).PP > (calculate_pivot_points prev).S1 ∧
      (calculate_pivot_points prev).S1 > (calculate_pivot_points prev).S2) ∧
    ((calculate_pivot_points prev).R2 = (calculate_pivot_points prev).R1 ∨
      (calculate_pivot_points prev).R1 = (calculate_pivot_points prev).PP ∨
      (calculate_pivot_points prev).PP = (calculate_pivot_points prev).S1 ∨
      (calculate_pivot_points prev).S1 = (calculate_pivot_points prev).S2 →
      prev.high = prev.low) := by
  obtain ⟨h, l, c⟩ := prev
  simp only [calculate_pivot_points] at *
  refine ⟨⟨by linarith, by linarith, by linarith, by linarith⟩,
    fun hgt => ⟨by linarith, by linarith, by linarith, by linarith⟩, fun heq => ?_⟩
  rcases heq with h1 | h1 | h1 | h1 <;> linarith

/-- C4 witness: the amended ordering at the session (105, 95, 100). -/
theorem pivot_ordering_amended_witness :
    (95 : ℚ) ≤ 100 ∧ (100 : ℚ) ≤ 105 ∧
    ((calculate_pivot_points ⟨105, 95, 100⟩).R2 > (calculate_pivot_points ⟨105, 95, 100⟩).R1 ∧
      (calculate_pivot_points ⟨105, 95, 100⟩).R1 > (calculate_pivot_points ⟨105, 95, 100⟩).PP ∧
      (calculate_pivot_points ⟨105, 95, 100⟩).PP > (calculate_pivot_points ⟨105, 95, 100⟩).S1 ∧
      (calculate_pivot_points ⟨105, 95, 100⟩).S1 > (calculate_pivot_points ⟨105, 95, 100⟩).S2) :=
  ⟨by norm_num, by norm_num,
    (pivot_ordering_amended ⟨105, 95, 100⟩ (by norm_num) (by norm_num)).2.1 (by norm_num)⟩

/-- C2: the five pivot levels follow the standard formulas, and the
prior session with high 105, low 95, close 100 yields
PP=100, R1=105, S1=95, R2=110, S2=90. -/
theorem pivot_points_formulas (prev : Bar) :
    (calculate_pivot_points prev).PP = (prev.high + prev.low + prev.close) / 3 ∧
    (calculate_pivot_points prev).R1 = 2 * ((prev.high + prev.low + prev.close) / 3) - prev.low ∧
    (calculate_pivot_points prev).S1 = 2 * ((prev.high + prev.low + prev.close) / 3) - prev.high ∧
    (calculate_pivot_points prev).R2 = (prev.high + prev.low + prev.close) / 3 + (prev.high - prev.low) ∧
    (calculate_pivot_points prev).S2 = (prev.high + prev.low + prev.close) / 3 - (prev.high - prev.low) ∧
    calculate_pivot_points ⟨105, 95, 100⟩ = ⟨110, 105, 100, 95, 90⟩ := by
  refine ⟨rfl, rfl, rfl, rfl, rfl, ?_⟩
  show Pivots.mk _ _ _ _ _ = _
  norm_num [calculate_pivot_points]

theorem long_ne_short : ("🟢 LONG" : String) ≠ "🔴 SHORT" := by decide

theorem neutral_ne_long : ("⚪️ HOLD/NEUTRAL" : String) ≠ "🟢 LONG" := by decide

theorem neutral_ne_short : ("⚪️ HOLD/NEUTRAL" : String) ≠ "🔴 SHORT" := by decide

theorem short_ne_long : ("🔴 SHORT" : String) ≠ "🟢 LONG" := by decide

/-- C1: the classifier returns the LONG verdict exactly when
close > EMA34, close > EMA50 and EMA5 > EMA12; the SHORT verdict exactly
when close < EMA34, close < EMA50, EMA5 < EMA12 and the LONG rule did not
match; otherwise the NEUTRAL verdict with its fixed reason and fixed stop
text; and exact equality (close = EMA34) lands in NEUTRAL. -/
theorem ripster_signal_classification (price e5 e12 e34 e50 : ℚ) :
    ((classifyLast price e5 e12 e34 e50).signal = "🟢 LONG" ↔
      (price > e34 ∧ price > e50 ∧ e5 > e12)) ∧
    ((classifyLast price e5 e12 e34 e50).signal = "🔴 SHORT" ↔
      ((price < e34 ∧ price < e50 ∧ e5 < e12) ∧
        ¬ (price > e34 ∧ price > e50 ∧ e5 > e12))) ∧
    (¬ (price > e34 ∧ price > e50 ∧ e5 > e12) →
      ¬ (price < e34 ∧ price < e50 ∧ e5 < e12) →
      classifyLast price e5 e12 e34 e50 =
        { signal := "⚪️ HOLD/NEUTRAL"
          reason := "Price is in a consolidation or conflicting signal zone."
          stop_loss := "No trade recommended."
          current_price := price }) ∧
    (price = e34 → (classifyLast price e5 e12 e34 e50).signal = "⚪️ HOLD/NEUTRAL") := by
  unfold classifyLast
  split_ifs with h1 h2
  · refine ⟨iff_of_true rfl ⟨h1.1.1, h1.1.2, h1.2⟩,
      iff_of_false long_ne_short (fun hf => hf.2 ⟨h1.1.1, h1.1.2, h1.2⟩),
      fun hn _ => absurd ⟨h1.1.1, h1.1.2, h1.2⟩ hn, ?_⟩
    intro hp
    subst hp
    exact absurd h1.1.1 (lt_irrefl _)
  · refine ⟨iff_of_false short_ne_long (fun hf => h1 ⟨⟨hf.1, hf.2.1⟩, hf.2.2⟩),
      iff_of_true rfl ⟨⟨h2.1.1, h2.1.2, h2.2⟩,
        fun hf => h1 ⟨⟨hf.1, hf.2.1⟩, hf.2.2⟩⟩,
      fun _ hns => absurd ⟨h2.1.1, h2.1.2, h2.2⟩ hns, ?_⟩
    intro hp
    subst hp
    exact absurd h2.1.1 (lt_irrefl _)
  · exact ⟨iff_of_false neutral_ne_long (fun hf => h1 ⟨⟨hf.1, hf.2.1⟩, hf.2.2⟩),
      iff_of_false neutral_ne_short (fun hf => h2 ⟨⟨hf.1.1, hf.1.2.1⟩, hf.1.2.2⟩),
      fun _ _ => rfl, fun _ => rfl⟩

/-- C1 witness: a bar with every field 0 fails both directional rules
(equality fails the strict comparisons) and gets the fixed NEUTRAL
verdict. -/
theorem ripster_signal_classification_witness :
    ¬ ((0 : ℚ) > 0 ∧ (0 : ℚ) > 0 ∧ (0 : ℚ) > 0) ∧
    ¬ ((0 : ℚ) < 0 ∧ (0 : ℚ) < 0 ∧ (0 : ℚ) < 0) ∧
    classifyLast 0 0 0 0 0 =
      { signal := "⚪️ HOLD/NEUTRAL"
        reason := "Price is in a consolidation or conflicting signal zone."
        stop_loss := "No trade recommended."
        current_price := 0 } :=
  ⟨by simp, by simp,
    (ripster_signal_classification 0 0 0 0 0).2.2.1 (by simp) (by simp)⟩

/-- C8: whenever the verdict is LONG or SHORT, the stop-loss text is the
34/50 band with the EMA34 value (2-decimal formatted) first and the EMA50
value second, separated by a dash, with no min/max reordering of the two
source values. -/
theorem stop_loss_band_order (price e5 e12 e34 e50 : ℚ)
    (h : (classifyLast price e5 e12 e34 e50).signal = "🟢 LONG" ∨
      (classifyLast price e5 e12 e34 e50).signal = "🔴 SHORT") :
    (classifyLast price e5 e12 e34 e50).stop_loss =
      "Primary stop is 34/50 cloud (" ++ fmt2 e34 ++ "-" ++ fmt2 e50 ++ ")." := by
  unfold classifyLast at h ⊢
  split_ifs at h ⊢
  · rfl
  · rfl
  · rcases h with h | h
    · exact absurd h neutral_ne_long
    · exact absurd h neutral_ne_short

/-- C8 witness: a LONG bar whose EMA34 (90) exceeds its EMA50 (80) still
prints the EMA34 value first: "(90.00-80.00)", not "(80.00-90.00)". -/
theorem stop_loss_band_order_witness :
    ((classifyLast 100 2 1 90 80).signal = "🟢 LONG" ∨
      (classifyLast 100 2 1 90 80).signal = "🔴 SHORT") ∧
    (90 : ℚ) > 80 ∧
    (classifyLast 100 2 1 90 80).stop_loss =
      "Primary stop is 34/50 cloud (90.00-80.00)." := by
  have hsig : (classifyLast 100 2 1 90 80).signal = "🟢 LONG" := by
    unfold classifyLast
    rw [if_pos (by norm_num : ((100 : ℚ) > 90 ∧ (100 : ℚ) > 80) ∧ (2 : ℚ) > 1)]
  have h34 : fmt2 (90 : ℚ) = "90.00" := by
    have hr : roundHalfEven ((90 : ℚ) * 100) = 9000 := by
      have hf : ⌊((90 : ℚ) * 100)⌋ = 9000 := by norm_num
      rw [roundHalfEven, hf]
      norm_num
    rw [fmt2]
    simp only [hr]
    decide
  have h50 : fmt2 (80 : ℚ) = "80.00" := by
    have hr : roundHalfEven ((80 : ℚ) * 100) = 8000 := by
      have hf : ⌊((80 : ℚ) * 100)⌋ = 8000 := by norm_num
      rw [roundHalfEven, hf]
      norm_num
    rw [fmt2]
    simp only [hr]
    decide
  refine ⟨Or.inl hsig, by norm_num, ?_⟩
  rw [stop_loss_band_order 100 2 1 90 80 (Or.inl hsig), h34, h50]
  rfl

/-- C10: the LONG and SHORT rule conditions are mutually exclusive, so the
`elif` precedence is never exercised: testing the SHORT rule by an
independent `if` (which would overwrite a LONG result) yields the same
verdict on every input. -/
theorem signal_rules_mutually_exclusive (price e5 e12 e34 e50 : ℚ) :
    ¬ ((price > e34 ∧ price > e50 ∧ e5 > e12) ∧
        (price < e34 ∧ price < e50 ∧ e5 < e12)) ∧
    classifyLast price e5 e12 e34 e50 =
      classifyShortIndependent price e5 e12 e34 e50 := by
  constructor
  · rintro ⟨⟨hgt, -, -⟩, ⟨hlt, -, -⟩⟩
    exact lt_asymm hlt hgt
  · unfold classifyLast classifyShortIndependent
    by_cases hL : (price > e34 ∧ price > e50) ∧ e5 > e12
    · by_cases hS : (price < e34 ∧ price < e50) ∧ e5 < e12
      · exact absurd hS.1.1 (lt_asymm hL.1.1)
      · rw [if_pos hL, if_neg hS, if_pos hL]
    · by_cases hS : (price < e34 ∧ price < e50) ∧ e5 < e12
      · rw [if_neg hL, if_pos hS, if_pos hS]
      · rw [if_neg hL, if_neg hS, if_neg hS, if_neg hL]

/-- C5: when the gateway returns an empty daily or empty intraday series
for a ticker, that iteration yields only the data-unavailable outcome (no
pivots, EMAs, or verdict), raises nothing, and the batch continues with
the remaining tickers unchanged. -/
theorem empty_series_skips_ticker (gateway : String → List Bar × List Bar)
    (t : String) (ts : List String)
    (h : (gateway t).1 = [] ∨ (gateway t).2 = []) :
    analyzeTicker gateway t = Except.ok Outcome.dataUnavailable ∧
    run_analysis_for_tickers gateway (t :: ts) =
      (run_analysis_for_tickers gateway ts).map
        (fun rest => (t, Outcome.dataUnavailable) :: rest) := by
  have ha : analyzeTicker gateway t = Except.ok Outcome.dataUnavailable := by
    unfold analyzeTicker get_stock_data
    rw [if_pos h]
  refine ⟨ha, ?_⟩
  rw [run_analysis_for_tickers, ha]
  cases hr : run_analysis_for_tickers gateway ts <;> rfl

/-- C5 witness: with a gateway that returns empty histories, a two-ticker
batch produces a data-unavailable outcome for each ticker and finishes
without error. -/
theorem empty_series_skips_ticker_witness :
    ((demoGatewayEmpty "AAPL").1 = [] ∨ (demoGatewayEmpty "AAPL").2 = []) ∧
    analyzeTicker demoGatewayEmpty "AAPL" = Except.ok Outcome.dataUnavailable ∧
    run_analysis_for_tickers demoGatewayEmpty ["AAPL", "MSFT"] =
      Except.ok [("AAPL", Outcome.dataUnavailable),
        ("MSFT", Outcome.dataUnavailable)] := by
  have h := empty_series_skips_ticker demoGatewayEmpty "AAPL" ["MSFT"] (Or.inl rfl)
  refine ⟨Or.inl rfl, h.1, ?_⟩
  rw [h.2]
  rfl

/-- C9: a non-empty daily history with exactly one row (and a non-empty
intraday history) passes the emptiness check, so `daily_hist.iloc[-2]`
raises an out-of-bounds IndexError instead of the no-data outcome, and
the exception aborts the analysis of that ticker and the batch. -/
theorem one_row_daily_index_error (gateway : String → List Bar × List Bar)
    (t : String) (h1 : (gateway t).1.length = 1) (h2 : (gateway t).2 ≠ []) :
    get_stock_data (gateway t).1 (gateway t).2 = Except.error AppErr.indexError ∧
    analyzeTicker gateway t = Except.error AppErr.indexError ∧
    ∀ ts, run_analysis_for_tickers gateway (t :: ts) =
      Except.error AppErr.indexError := by
  have hd : (gateway t).1 ≠ [] := by
    intro he
    rw [he] at h1
    simp at h1
  have hiloc : iloc (gateway t).1 (-2) = none := by
    simp only [iloc, h1]
    norm_num
  have hg : get_stock_data (gateway t).1 (gateway t).2
      = Except.error AppErr.indexError := by
    unfold get_stock_data
    rw [if_neg fun hor => hor.elim hd h2, hiloc]
  have ha : analyzeTicker gateway t = Except.error AppErr.indexError := by
    unfold analyzeTicker
    rw [hg]
  refine ⟨hg, ha, fun ts => ?_⟩
  unfold run_analysis_for_tickers
  rw [ha]

/-- C9 witness: a gateway whose daily history has exactly one row makes
`get_stock_data` fail with IndexError although the data was non-empty. -/
theorem one_row_daily_index_error_witness :
    (demoGatewayOneDay "TSLA").1.length = 1 ∧
    (demoGatewayOneDay "TSLA").2 ≠ [] ∧
    get_stock_data (demoGatewayOneDay "TSLA").1 (demoGatewayOneDay "TSLA").2 =
      Except.error AppErr.indexError := by
  have h := one_row_daily_index_error demoGatewayOneDay "TSLA" rfl (by simp [demoGatewayOneDay])
  exact ⟨rfl, by simp [demoGatewayOneDay], h.1⟩

end TradingApp
